import Mathlib

/-
Verification development for the godi-code repository: a shallow embedding of
the request-dispatch core (vendor/github.com/kkrs/di/router/mux.go and
vendor/github.com/kkrs/di/dispatcher.go) and of the sample message controller
(domain.go), together with proofs of the specification's claims about them.

Conventions of the embedding:
- Go maps are reference values.  The `verbMux` maps shared between
  `Mux.patternMux` (the inner http.ServeMux) and `Mux.byPattern` are therefore
  modelled as heap cells: `Mux.heap` assigns a verb table to each allocated
  map id, and the two tables store ids.  `Mux.nextId` is the allocator.
- Functions that can panic return `Except String _` (the panic message), or
  `GoStep` when a Go-level `error` return and a panic must both be modelled.
- Handlers are opaque to the Mux (type parameter `H`).
-/

set_option autoImplicit false
set_option linter.dupNamespace false

/-- A `verbMux` value: Go `map[string]http.Handler`, keyed by HTTP verb. -/
abbrev VerbMux (H : Type) : Type := List (String × H)

/-- The heap of allocated `verbMux` map objects, addressed by map id. -/
abbrev MuxHeap (H : Type) : Type := List (Nat × VerbMux H)

/-- Go map assignment `vm[verb] = h`: overwrite the entry if the key is
present, otherwise insert it. -/
def vmSet {H : Type} (vm : VerbMux H) (verb : String) (h : H) : VerbMux H :=
  match vm with
  | [] => [(verb, h)]
  | (k, v) :: rest =>
    if verb = k then (k, h) :: rest else (k, v) :: vmSet rest verb h

/-- Go map assignment through a reference: mutate the verb table of the map
object `mid` in place (`h[verb] = handler` in `Mux.Handle`). -/
def heapSet {H : Type} (heap : MuxHeap H) (mid : Nat) (verb : String) (h : H) :
    MuxHeap H :=
  match heap with
  | [] => []
  | (k, vm) :: rest =>
    if k = mid then (k, vmSet vm verb h) :: rest else (k, vm) :: heapSet rest mid verb h

/-- The repository's `router.Mux` (mux.go).  `patternMux` is the inner
`http.ServeMux` table (pattern to verbMux map id), `byPattern` is the
`byPattern map[string]verbMux` field (pattern to verbMux map id), `heap` holds
the verbMux map objects, `nextId` allocates map ids.  The `sync.RWMutex` field
is not part of the sequential state. -/
structure Mux (H : Type) where
  patternMux : List (String × Nat)
  byPattern : List (String × Nat)
  heap : MuxHeap H
  nextId : Nat

/-- `router.New`: fresh ServeMux and empty byPattern table. -/
def Mux.New {H : Type} : Mux H := ⟨[], [], [], 0⟩

/-- `http.ServeMux.Handle` (vendored-era Go stdlib), restricted to the parts
the repository exercises: it panics on an empty pattern and panics when the
pattern is already registered; host-qualified patterns and the implicit
"/tree" to "/tree/" redirect entry are outside the claims and not modelled.
A nil handler cannot be expressed in the embedding. -/
def serveMuxHandle (sm : List (String × Nat)) (pattern : String) (mid : Nat) :
    Except String (List (String × Nat)) :=
  if pattern = "" then .error ("http: invalid pattern " ++ pattern)
  else if (sm.lookup pattern).isSome then
    .error ("http: multiple registrations for " ++ pattern)
  else .ok ((pattern, mid) :: sm)

/-- `Mux.Handle` (mux.go).  The source reads `h := m.byPattern[pattern]`; on a
miss it allocates a fresh verbMux and registers it with the inner ServeMux,
and in either case it then executes `h[verb] = handler`.  The source never
performs `m.byPattern[pattern] = h`, so `byPattern` is left exactly as it was
found; this is modelled faithfully. -/
def Mux.Handle {H : Type} (m : Mux H) (verb pattern : String) (handler : H) :
    Except String (Mux H) :=
  match m.byPattern.lookup pattern with
  | some mid => .ok { m with heap := heapSet m.heap mid verb handler }
  | none =>
    match serveMuxHandle m.patternMux pattern m.nextId with
    | .error e => .error e
    | .ok pm =>
      .ok { patternMux := pm
            byPattern := m.byPattern
            heap := heapSet ((m.nextId, []) :: m.heap) m.nextId verb handler
            nextId := m.nextId + 1 }

/-- Go stdlib `pathMatch` used by ServeMux: a pattern not ending in a slash
matches exactly; a pattern ending in a slash matches every path it prefixes. -/
def pathMatch (pattern path : String) : Bool :=
  if pattern.length = 0 then false
  else if pattern.data.getLast? ≠ some '/' then pattern == path
  else pattern.data.isPrefixOf path.data

/-- One step of `ServeMux.match`: keep the matching pattern of greatest
length (`if h == nil || len(k) > n`). -/
def muxMatchStep (path : String) (best : Option (String × Nat)) (e : String × Nat) :
    Option (String × Nat) :=
  if pathMatch e.1 path then
    match best with
    | none => some e
    | some b => if b.1.length < e.1.length then some e else some b
  else best

/-- `ServeMux.match`: scan the pattern table and return the longest matching
pattern together with its verbMux map id. -/
def serveMuxMatch (sm : List (String × Nat)) (path : String) :
    Option (String × Nat) :=
  sm.foldl (muxMatchStep path) none

/-- Outcome of serving one request through the Mux: the inner ServeMux falls
back to `http.NotFoundHandler` (status 404) when no pattern matches, and the
matched pattern's `verbMux.ServeHTTP` writes status 405 when the request
method has no entry; otherwise the stored handler runs. -/
inductive Resolution (H : Type) where
  | notFound
  | methodNotAllowed
  | handler (h : H)
deriving DecidableEq

/-- `Mux.ServeHTTP` composed with `http.ServeMux.ServeHTTP` and
`verbMux.ServeHTTP` (mux.go), for requests whose path is already in canonical
form (the stdlib's clean-path redirect is transport plumbing outside the
claims).  A registered pattern's verbMux always exists on the heap, so the
`getD []` default is never taken on reachable states. -/
def Mux.serve {H : Type} (m : Mux H) (method path : String) : Resolution H :=
  match serveMuxMatch m.patternMux path with
  | none => .notFound
  | some (_, mid) =>
    match ((m.heap.lookup mid).getD []).lookup method with
    | none => .methodNotAllowed
    | some h => .handler h

/-- View of the routing table at an exact (verb, pattern) key: the handler
the table holds for that pair, ignoring prefix matching.  Used to state which
routes are present after registration. -/
def Mux.routeFor {H : Type} (m : Mux H) (verb pattern : String) : Option H :=
  (m.patternMux.lookup pattern).bind fun mid =>
    ((m.heap.lookup mid).getD []).lookup verb

/-- Run a sequence of `Mux.Handle` registrations from the given state,
propagating the first panic. -/
def applyHandlesFrom {H : Type} (m : Mux H) :
    List (String × String × H) → Except String (Mux H)
  | [] => .ok m
  | r :: rs =>
    match Mux.Handle m r.1 r.2.1 r.2.2 with
    | .error e => .error e
    | .ok m' => applyHandlesFrom m' rs

/-- Run a sequence of `Mux.Handle` registrations on a fresh `router.New`. -/
def applyHandles {H : Type} (rs : List (String × String × H)) :
    Except String (Mux H) :=
  applyHandlesFrom Mux.New rs

/-- Basic well-formedness of a Mux state: the byPattern table is empty (the
source never writes to it) and every allocated map id is below the
allocator. -/
def Mux.WF {H : Type} (m : Mux H) : Prop :=
  m.byPattern = [] ∧ ∀ e ∈ m.heap, e.1 < m.nextId

/-- Invariant tying a Mux state to the sequence of successful `Mux.Handle`
registrations `(verb, pattern, handler)` that produced it: the state is
well-formed, every ServeMux entry belongs to a registration and owns a
singleton verb table holding that registration's verb and handler (singleton
because a repeated pattern makes `Handle` panic, see `Mux.Handle_ok`), and
every registered pattern is present. -/
def MuxInv {H : Type} (m : Mux H) (rs : List (String × String × H)) : Prop :=
  m.WF ∧
  (∀ e ∈ m.patternMux,
    ∃ v h, (v, e.1, h) ∈ rs ∧ m.heap.lookup e.2 = some [(v, h)]) ∧
  (∀ r ∈ rs, ∃ mid, (r.2.1, mid) ∈ m.patternMux)

/-- A Go type, identified (as `reflect.Type` identity and `%s` printing are)
by its type string. -/
structure GoTy where
  name : String
deriving DecidableEq

instance : Inhabited GoTy := ⟨⟨""⟩⟩

/-- The type `*http.Request`, which `validate` requires as second argument. -/
def ptrRequest : GoTy := ⟨"*http.Request"⟩

/-- A `reflect.Method` as `validate` consumes it: `PkgPath` (empty exactly
for exported methods) and the method type's `In(i)` parameter list, which for
a method obtained from `Type.Method` includes the receiver at index 0. -/
structure RMethod where
  pkgPath : String
  ins : List GoTy
deriving DecidableEq

/-- `di.Binding` (dispatcher.go): Verb, Path and method Name. -/
structure Binding where
  verb : String
  path : String
  name : String
deriving DecidableEq

/-- `strings.ToUpper`, as applied to HTTP verbs (per-character upper-casing;
for the ASCII verbs in play Go's Unicode mapping and `Char.toUpper`
coincide). -/
def goToUpper (s : String) : String := ⟨s.data.map Char.toUpper⟩

/-- A controller instance returned by `RequestFactory.NewController`: all the
adapter inspects is its dynamic type (`reflect.TypeOf`). -/
structure CtrlInstance where
  dynTy : GoTy
deriving DecidableEq

/-- The parts of an `*http.Request` the dispatcher reads: `req.Method` and
`req.URL.Path`. -/
structure DRequest where
  method : String
  path : String
deriving DecidableEq

/-- `di.Dispatcher`: its name and the `ApplicationFactory`.  The factory is
modelled by its composite behaviour `With(req).NewController(label)`; the
Router is threaded through `bind`/`Register` explicitly as a `Mux` state. -/
structure Dispatcher where
  name : String
  factory : DRequest → String → CtrlInstance

/-- `Dispatcher.String()`: `di.Dispatcher<name>`. -/
def dispatcherString (di : Dispatcher) : String :=
  "di.Dispatcher<" ++ di.name ++ ">"

/-- The closure built by `Dispatcher.adapt`, defunctionalised: it captures the
dispatcher (with its factory), the controller type recorded at registration,
the label `as`, and the method resolved at registration time. -/
structure Adapter where
  di : Dispatcher
  ctrlType : GoTy
  label : String
  meth : RMethod

/-- What one invocation of the adapter closure does: either it panics with
the given message, or it calls the resolved method on the freshly constructed
instance, passing along the adapter's own response writer and request
arguments. -/
inductive AdaptOutcome where
  | panicked (msg : String)
  | invoked (meth : RMethod) (inst : CtrlInstance) (req : DRequest)

/-- Body of the closure returned by `Dispatcher.adapt` (dispatcher.go): get a
fresh controller instance from the request-scoped factory, panic if its
dynamic type differs from the controller type recorded at registration,
otherwise call the registration-time method on it. -/
def Adapter.run (a : Adapter) (req : DRequest) : AdaptOutcome :=
  let rcvr := a.di.factory req a.label
  if rcvr.dynTy ≠ a.ctrlType then
    .panicked (dispatcherString a.di ++ ": for " ++ req.method ++ ", " ++
      req.path ++ " NewController(" ++ a.label ++ ") returned " ++
      rcvr.dynTy.name ++ " but expected " ++ a.ctrlType.name)
  else .invoked a.meth rcvr req

/-- `validate` (dispatcher.go): the method must be exported, must have
exactly 3 ins (receiver, response writer, request), its `In(1)` must
implement `http.ResponseWriter` and its `In(2)` must be `*http.Request`.
The Go `Implements` relation is supplied as the environment `implementsRW`. -/
def validate (implementsRW : GoTy → Bool) (meth : RMethod) : Except String Unit :=
  if meth.pkgPath ≠ "" then .error "not an exported type"
  else if meth.ins.length ≠ 3 then
    .error ("wrong number of arguments: " ++ toString meth.ins.length ++ ", expect 3")
  else if implementsRW (meth.ins.getD 1 default) = false then
    .error ("1st argument type " ++ (meth.ins.getD 1 default).name ++
      " does not implement http.ResponseWriter")
  else if meth.ins.getD 2 default ≠ ptrRequest then
    .error ("2nd argument of type " ++ (meth.ins.getD 2 default).name ++
      ", but expect *http.Request")
  else .ok ()

/-- A `di.Controller` value as registration sees it: its dynamic type
(`reflect.TypeOf`), its bare type name (`reflect.Indirect(...).Type().Name()`),
the exported method set of its type (`MethodByName`), and the result of
`Bindings()`. -/
structure GoController where
  typeName : String
  dynTy : GoTy
  methods : List (String × RMethod)
  bindings : List Binding

/-- Result of a Go call that both returns a value and may panic, carrying the
router state at the point of return or panic. -/
inductive GoStep (σ α : Type) where
  | ok (s : σ) (val : α)
  | panicked (s : σ) (msg : String)

/-- `Dispatcher.bind` (dispatcher.go): resolve the binding's method name on
the controller type, validate it, build the adapter, and register it with the
router under the upper-cased verb.  Lookup and validation failures are
returned as errors before the router is touched; `Mux.Handle` itself can
panic. -/
def Dispatcher.bind (implementsRW : GoTy → Bool) (di : Dispatcher)
    (m : Mux Adapter) (ctrl : GoController) (as : String) (method : Binding) :
    GoStep (Mux Adapter) (Option String) :=
  match ctrl.methods.lookup method.name with
  | none =>
    .ok m (some (dispatcherString di ++ ": could not find method '" ++
      method.name ++ "' in type '" ++ ctrl.typeName ++ "'"))
  | some ctrlMeth =>
    match validate implementsRW ctrlMeth with
    | .error e =>
      .ok m (some (dispatcherString di ++ ": error validating " ++
        ctrl.typeName ++ "." ++ method.name ++ ": " ++ e))
    | .ok _ =>
      match Mux.Handle m (goToUpper method.verb) method.path
          (Adapter.mk di ctrl.dynTy as ctrlMeth) with
      | .error pmsg => .panicked m pmsg
      | .ok m2 => .ok m2 none

/-- The `for _, m := range bindings` loop of `Dispatcher.Register`: bind each
binding in order, stopping at the first returned error and propagating any
panic. -/
def registerLoop (implementsRW : GoTy → Bool) (di : Dispatcher)
    (ctrl : GoController) (as : String) :
    Mux Adapter → List Binding → GoStep (Mux Adapter) (Option String)
  | m, [] => .ok m none
  | m, b :: bs =>
    match Dispatcher.bind implementsRW di m ctrl as b with
    | .panicked s msg => .panicked s msg
    | .ok m2 (some e) => .ok m2 (some e)
    | .ok m2 none => registerLoop implementsRW di ctrl as m2 bs

/-- `Dispatcher.Register` (dispatcher.go): reject an empty label, reject an
empty binding list, then bind every binding in order. -/
def Dispatcher.Register (implementsRW : GoTy → Bool) (di : Dispatcher)
    (m : Mux Adapter) (ctrl : GoController) (as : String) :
    GoStep (Mux Adapter) (Option String) :=
  if as = "" then
    .ok m (some (dispatcherString di ++ ": argument 'as' cannot be empty"))
  else if ctrl.bindings.length = 0 then
    .ok m (some (dispatcherString di ++ ": type '" ++ as ++ "' returns 0 bindings"))
  else registerLoop implementsRW di ctrl as m ctrl.bindings

/-- The `Message` struct of domain.go. -/
structure Message where
  From : String
  To : String
  Message : String
deriving DecidableEq

/-- The `Transport` dependency of `MessageController`, seen through its
`Send` behaviour: the error (or nil) it returns for a given message.  The
persistence side effect itself is captured by the list of `Send` calls the
controller makes, returned by `MessageController.Send` below. -/
structure Transport where
  sendErr : Message → Option String

/-- `MessageController` (domain.go) with its injected Transport. -/
structure MessageController where
  transport : Transport

/-- The server-side `http.ResponseWriter`, recorded: the status of the first
`WriteHeader` call (later calls are superfluous and ignored, as in
net/http), the accumulated body, and the log of all `WriteHeader` calls. -/
structure ResponseRecorder where
  wroteHeader : Option Nat
  body : String
  headerLog : List Nat
deriving DecidableEq

/-- A fresh response writer. -/
def ResponseRecorder.init : ResponseRecorder := ⟨none, "", []⟩

/-- `ResponseWriter.WriteHeader`: the first call fixes the status; any later
call is logged by the server as superfluous and changes nothing. -/
def ResponseRecorder.WriteHeader (rw : ResponseRecorder) (code : Nat) :
    ResponseRecorder :=
  { wroteHeader := if rw.wroteHeader.isSome then rw.wroteHeader else some code
    body := rw.body
    headerLog := rw.headerLog ++ [code] }

/-- `ResponseWriter.Write`: an implicit 200 status if no header was written
yet (that implicit path is never reached by `Send`), then append to the
body. -/
def ResponseRecorder.write (rw : ResponseRecorder) (s : String) :
    ResponseRecorder :=
  { wroteHeader := if rw.wroteHeader.isSome then rw.wroteHeader else some 200
    body := rw.body ++ s
    headerLog := rw.headerLog }

/-- stdlib `http.Error`: write the header with the given code, then print the
error followed by a newline into the body (header fields such as
Content-Type are outside the claims). -/
def httpErrorStd (rw : ResponseRecorder) (error : String) (code : Nat) :
    ResponseRecorder :=
  (rw.WriteHeader code).write (error ++ "\n")

/-- `HTTPError` (domain.go): `http.Error` with the JSON error envelope
produced by `fmt.Sprintf` on the error's message. -/
def HTTPError (rw : ResponseRecorder) (status : Nat) (err : String) :
    ResponseRecorder :=
  httpErrorStd rw ("\x7b\"error\": \"" ++ err ++ "\"\x7d") status

/-- `Unmarshal` (domain.go) applied to `&msg`: `ioutil.ReadAll` and
`json.Unmarshal` are Go library externals.  The body is modelled by the
outcome of `ReadAll` (the bytes read, or the read error); a failed read
returns before the decoder runs, leaving the destination untouched.
`json.Unmarshal(payload, dst)` mutates `dst` and returns an error, so it is
modelled by the abstract decoder `jsonUnmarshal`, which receives the payload
and the destination's current value and returns the destination's new value
together with the returned error: on a syntax error encoding/json leaves the
destination untouched, on a type error it skips the mistyped field, fills
the remaining fields and still returns an error, and on success it fills the
destination completely — all three are instances of the parameter.  The
result pairs the destination's final value with the returned error. -/
def Unmarshal (jsonUnmarshal : String → Message → Message × Option String)
    (body : Except String String) (dst : Message) : Message × Option String :=
  match body with
  | .error e => (dst, some e)
  | .ok payload => jsonUnmarshal payload dst

/-- `MessageController.Send` (domain.go), translated statement by statement:
`var msg Message` starts from the zero value; a failed `Unmarshal` writes the
500 envelope but does not return; `ct.Transport.Send(msg)` is always called
with whatever `msg` holds at that point (the zero value, a partially decoded
message, or the decoded message); a failed send writes the 500 envelope but
does not return; finally `rw.WriteHeader(http.StatusOK)` always runs.  The
result pairs the response with the list of `Transport.Send` calls made. -/
def MessageController.Send (ct : MessageController)
    (jsonUnmarshal : String → Message → Message × Option String)
    (reqBody : Except String String) (rw : ResponseRecorder) :
    ResponseRecorder × List Message :=
  let msg0 : Message := ⟨"", "", ""⟩
  let r := Unmarshal jsonUnmarshal reqBody msg0
  let msg := r.1
  let rw1 := match r.2 with
    | some e => HTTPError rw 500 ("error reading request: " ++ e)
    | none => rw
  let rw2 := match ct.transport.sendErr msg with
    | some e => HTTPError rw1 500 ("error sending message: " ++ e)
    | none => rw1
  (rw2.WriteHeader 200, [msg])

/-- Concrete registration sequence mirroring the sample app's two routes. -/
def c2Regs : List (String × String × Nat) :=
  [("GET", "/spy/messages", 0), ("POST", "/api/messages", 1)]

/-- The Mux produced by registering `c2Regs` on a fresh router. -/
def c2Mux : Mux Nat :=
  match applyHandles c2Regs with
  | .ok m => m
  | .error _ => Mux.New

/-- A mock response-writer implementation type for the registration
examples. -/
def rwTyEx : GoTy := ⟨"mock.RW"⟩

/-- The Go `Implements http.ResponseWriter` relation of the examples: only
`rwTyEx` implements it. -/
def implRWEx : GoTy → Bool := fun t => t = rwTyEx

/-- The controller type of the examples (`message.MessageController`). -/
def ctrlTyEx : GoTy := ⟨"message.MessageController"⟩

/-- The shape of `MessageController.Send`/`List` under reflection: exported,
with receiver, response writer and `*http.Request` parameters. -/
def methSendEx : RMethod := ⟨"", [ctrlTyEx, rwTyEx, ptrRequest]⟩

/-- A request factory that always constructs a `MessageController`. -/
def factoryEx : DRequest → String → CtrlInstance := fun _ _ => ⟨ctrlTyEx⟩

/-- A request factory that constructs an instance of the wrong type. -/
def factoryBadEx : DRequest → String → CtrlInstance := fun _ _ => ⟨⟨"int"⟩⟩

/-- The example dispatcher (`di.New("messageService", ...)`). -/
def diEx : Dispatcher := ⟨"messageService", factoryEx⟩

/-- An example controller whose second binding names a method that does not
exist on the controller type. -/
def ctrlEx : GoController :=
  ⟨"MessageController", ctrlTyEx,
    [("Send", methSendEx), ("List", methSendEx)],
    [⟨"POST", "/api/messages", "Send"⟩, ⟨"GET", "/spy/messages", "Missing"⟩]⟩

/-- The Mux after binding the first (valid) binding of `ctrlEx`. -/
def c3MPre : Mux Adapter :=
  match registerLoop implRWEx diEx ctrlEx "message" Mux.New
      [⟨"POST", "/api/messages", "Send"⟩] with
  | .ok s _ => s
  | .panicked s _ => s

/-- An example controller with a single lower-case-verb binding, as used by
the verb-case claims. -/
def ctrlLowEx : GoController :=
  ⟨"MessageController", ctrlTyEx, [("Send", methSendEx)],
    [⟨"post", "/api/messages", "Send"⟩]⟩

/-- A JSON decoder behaviour that always succeeds with the sample message. -/
def juOkEx : String → Message → Message × Option String :=
  fun _ _ => (⟨"kkrs", "world", "hello"⟩, none)

/-- A JSON decoder behaviour that fails with a syntax error, leaving the
destination untouched (encoding/json checks validity before writing on a
syntax error). -/
def juBadEx : String → Message → Message × Option String :=
  fun _ dst => (dst, some "unexpected end of JSON input")

/-- A JSON decoder behaviour modelling encoding/json on the body
`{"From":1,"To":"kkrs","Message":"hi"}`: the mistyped `From` field is
skipped (the destination's value survives), the remaining fields are
filled, and a type error is still returned. -/
def juTypeErrEx : String → Message → Message × Option String :=
  fun _ dst =>
    (⟨dst.From, "kkrs", "hi"⟩,
      some "json: cannot unmarshal number into Go value of type string")

/-- A controller over a transport whose Send always succeeds. -/
def ctOkEx : MessageController := ⟨⟨fun _ => none⟩⟩

/-- A controller over a transport whose Send always fails. -/
def ctFailEx : MessageController :=
  ⟨⟨fun _ => some "datastore: connection refused"⟩⟩

theorem lookup_mem {κ α : Type} [BEq κ] [LawfulBEq κ] {l : List (κ × α)} {k : κ}
    {v : α} (h : l.lookup k = some v) : (k, v) ∈ l := by
  induction l with
  | nil => simp [List.lookup] at h
  | cons e rest ih =>
    obtain ⟨k', v'⟩ := e
    rw [List.lookup] at h
    split at h
    · rename_i hk
      obtain rfl : k = k' := eq_of_beq hk
      obtain rfl : v' = v := by simpa using h
      exact List.mem_cons_self _ _
    · exact List.mem_cons_of_mem _ (ih h)

theorem lookup_cons_ne {κ α : Type} [BEq κ] [LawfulBEq κ] {l : List (κ × α)}
    {k k' : κ} {v : α} (h : k ≠ k') : ((k', v) :: l).lookup k = l.lookup k := by
  rw [List.lookup]
  simp [beq_eq_false_iff_ne.mpr h]

theorem lookup_cons_self {κ α : Type} [BEq κ] [LawfulBEq κ] {l : List (κ × α)}
    {k : κ} {v : α} : ((k, v) :: l).lookup k = some v := by
  rw [List.lookup]
  simp

/-- A successful `Mux.Handle` on a well-formed state pins everything down: the
pattern is nonempty and fresh, and the new state conses the pattern onto the
ServeMux table and a fresh singleton verb table onto the heap — while
`byPattern` stays empty, so the overwrite path of `Handle` is dead code. -/
theorem Mux.Handle_ok {H : Type} {m m' : Mux H} {v p : String} {a : H}
    (hwf : m.WF) (h : Mux.Handle m v p a = .ok m') :
    p ≠ "" ∧ m.patternMux.lookup p = none ∧
      m' = ⟨(p, m.nextId) :: m.patternMux, [], (m.nextId, [(v, a)]) :: m.heap,
        m.nextId + 1⟩ := by
  obtain ⟨hbp, hids⟩ := hwf
  rw [Mux.Handle, hbp] at h
  by_cases hp : p = ""
  · simp [serveMuxHandle, hp, List.lookup] at h
  cases hlp : m.patternMux.lookup p with
  | some mid => simp [serveMuxHandle, hp, hlp, List.lookup] at h
  | none =>
    refine ⟨hp, rfl, ?_⟩
    simp [serveMuxHandle, hp, hlp, List.lookup, heapSet, vmSet] at h
    exact h.symm

/-- `Mux.Handle` preserves well-formedness. -/
theorem Mux.Handle_WF {H : Type} {m m' : Mux H} {v p : String} {a : H}
    (hwf : m.WF) (h : Mux.Handle m v p a = .ok m') : m'.WF := by
  obtain ⟨-, -, rfl⟩ := Mux.Handle_ok hwf h
  refine ⟨rfl, ?_⟩
  intro e he
  rcases List.mem_cons.mp he with rfl | he'
  · exact Nat.lt_succ_self _
  · exact Nat.lt_succ_of_lt (hwf.2 e he')

/-- A successful `Mux.Handle` leaves every route that was already in the
table untouched. -/
theorem Mux.Handle_preserves {H : Type} {m m' : Mux H} {v p : String} {a : H}
    (hwf : m.WF) (h : Mux.Handle m v p a = .ok m') :
    ∀ v' p' x, m.routeFor v' p' = some x → m'.routeFor v' p' = some x := by
  obtain ⟨hp, hlp, rfl⟩ := Mux.Handle_ok hwf h
  intro v' p' x hr
  rw [Mux.routeFor, Option.bind_eq_some] at hr
  obtain ⟨mid, hmid, hvm⟩ := hr
  have hne : p' ≠ p := by
    rintro rfl
    rw [hmid] at hlp
    exact Option.noConfusion hlp
  cases hh : m.heap.lookup mid with
  | none => rw [hh] at hvm; simp [List.lookup] at hvm
  | some vm =>
    have hmidlt : mid < m.nextId := hwf.2 _ (lookup_mem hh)
    rw [Mux.routeFor]
    show (((p, m.nextId) :: m.patternMux).lookup p').bind _ = some x
    rw [lookup_cons_ne hne, hmid]
    simp only [Option.some_bind]
    rw [lookup_cons_ne (Nat.ne_of_lt hmidlt), hh]
    rw [hh] at hvm
    exact hvm

/-- A successful `Mux.Handle` makes the new (upper-level verb, pattern) route
present, mapped to the handler just registered. -/
theorem Mux.Handle_new_route {H : Type} {m m' : Mux H} {v p : String} {a : H}
    (hwf : m.WF) (h : Mux.Handle m v p a = .ok m') :
    m'.routeFor v p = some a := by
  obtain ⟨-, -, rfl⟩ := Mux.Handle_ok hwf h
  rw [Mux.routeFor]
  show (((p, m.nextId) :: m.patternMux).lookup p).bind _ = some a
  rw [lookup_cons_self]
  simp only [Option.some_bind]
  rw [lookup_cons_self]
  exact lookup_cons_self

example : applyHandles [("GET", "/p", (0 : Nat)), ("POST", "/p", 1)] =
    .error "http: multiple registrations for /p" := rfl

example :
    MessageController.Send ⟨⟨fun _ => none⟩⟩
      (fun _ _ => (⟨"kkrs", "world", "hello"⟩, none))
      (.ok "payload") ResponseRecorder.init =
    (⟨some 200, "", [200]⟩, [⟨"kkrs", "world", "hello"⟩]) := rfl

example :
    MessageController.Send ⟨⟨fun _ => none⟩⟩ (fun _ dst => (dst, some "bad json"))
      (.ok "payload") ResponseRecorder.init =
    (⟨some 500, "\x7b\"error\": \"error reading request: bad json\"\x7d\n", [500, 200]⟩,
     [⟨"", "", ""⟩]) := rfl

example : applyHandles [("GET", "/a", (0 : Nat)), ("POST", "/b", 1)] =
    .ok ⟨[("/b", 1), ("/a", 0)], [], [(1, [("POST", 1)]), (0, [("GET", 0)])], 2⟩ := rfl

example : (Mux.serve ⟨[("/b", 1), ("/a", 0)], [], [(1, [("POST", 1)]), (0, [("GET", 0)])], 2⟩
    "GET" "/a" : Resolution Nat) = .handler 0 := rfl

example : (Mux.serve ⟨[("/b", 1), ("/a", 0)], [], [(1, [("POST", 1)]), (0, [("GET", 0)])], 2⟩
    "PUT" "/a" : Resolution Nat) = .methodNotAllowed := rfl

example : (Mux.serve ⟨[("/b", 1), ("/a", 0)], [], [(1, [("POST", 1)]), (0, [("GET", 0)])], 2⟩
    "GET" "/c" : Resolution Nat) = .notFound := rfl

theorem isPrefixOf_self {α : Type} [BEq α] [LawfulBEq α] (l : List α) :
    l.isPrefixOf l = true := by
  induction l with
  | nil => rfl
  | cons a rest ih => simp [List.isPrefixOf, ih]

/-- Every nonempty pattern matches its own path. -/
theorem pathMatch_self {p : String} (hp : p ≠ "") : pathMatch p p = true := by
  rw [pathMatch]
  have hlen : p.length ≠ 0 := fun h => hp (by
    cases p with
    | mk data => cases data with
      | nil => rfl
      | cons c cs => simp [String.length] at h)
  rw [if_neg hlen]
  by_cases hsl : p.data.getLast? ≠ some '/'
  · rw [if_pos hsl]; simp
  · rw [if_neg hsl]; exact isPrefixOf_self _

theorem muxMatchStep_isSome {path : String} {best : Option (String × Nat)}
    (e : String × Nat) (h : best.isSome) : (muxMatchStep path best e).isSome := by
  rw [muxMatchStep.eq_def]
  split
  · cases best with
    | none => simp at h
    | some b => dsimp only; split <;> rfl
  · exact h

theorem muxMatchFold_isSome {path : String} :
    ∀ (l : List (String × Nat)) (best : Option (String × Nat)), best.isSome →
      (l.foldl (muxMatchStep path) best).isSome := by
  intro l
  induction l with
  | nil => intro best h; exact h
  | cons e rest ih =>
    intro best h
    exact ih _ (muxMatchStep_isSome e h)

theorem muxMatchFold_mem {path : String} :
    ∀ (l : List (String × Nat)) (best : Option (String × Nat)) (e : String × Nat),
      l.foldl (muxMatchStep path) best = some e →
      (e ∈ l ∧ pathMatch e.1 path = true) ∨ best = some e := by
  intro l
  induction l with
  | nil => intro best e h; exact Or.inr h
  | cons x rest ih =>
    intro best e h
    rcases ih _ _ h with ⟨hmem, hpm⟩ | hstep
    · exact Or.inl ⟨List.mem_cons_of_mem _ hmem, hpm⟩
    · rw [muxMatchStep.eq_def] at hstep
      split at hstep
      · rename_i hpmx
        cases best with
        | none =>
          obtain rfl : x = e := by simpa using hstep
          exact Or.inl ⟨List.mem_cons_self _ _, hpmx⟩
        | some b =>
          dsimp only at hstep
          split at hstep
          · obtain rfl : x = e := by simpa using hstep
            exact Or.inl ⟨List.mem_cons_self _ _, hpmx⟩
          · exact Or.inr hstep
      · exact Or.inr hstep

/-- If no element of the table matches the path, the fold returns its
accumulator. -/
theorem muxMatchFold_none {path : String} :
    ∀ (l : List (String × Nat)) (best : Option (String × Nat)),
      (∀ e ∈ l, pathMatch e.1 path = false) →
      l.foldl (muxMatchStep path) best = best := by
  intro l
  induction l with
  | nil => intro best _; rfl
  | cons x rest ih =>
    intro best hno
    have hx : pathMatch x.1 path = false := hno x (List.mem_cons_self _ _)
    have hstep : muxMatchStep path best x = best := by
      rw [muxMatchStep.eq_def, hx]; simp
    rw [List.foldl_cons, hstep]
    exact ih best fun e he => hno e (List.mem_cons_of_mem _ he)

theorem serveMuxMatch_none {sm : List (String × Nat)} {path : String}
    (h : ∀ e ∈ sm, pathMatch e.1 path = false) : serveMuxMatch sm path = none :=
  muxMatchFold_none sm none h

theorem serveMuxMatch_mem {sm : List (String × Nat)} {path : String}
    {e : String × Nat} (h : serveMuxMatch sm path = some e) :
    e ∈ sm ∧ pathMatch e.1 path = true := by
  rcases muxMatchFold_mem sm none e h with he | hnone
  · exact he
  · exact Option.noConfusion hnone

theorem muxMatchStep_isSome_of_match {path : String} {best : Option (String × Nat)}
    {e : String × Nat} (hpm : pathMatch e.1 path = true) :
    (muxMatchStep path best e).isSome := by
  rw [muxMatchStep.eq_def, hpm]
  cases best with
  | none => rfl
  | some b =>
    dsimp only
    split
    · split <;> rfl
    · rfl

theorem serveMuxMatch_isSome {sm : List (String × Nat)} {path : String}
    {e : String × Nat} (hmem : e ∈ sm) (hpm : pathMatch e.1 path = true) :
    (serveMuxMatch sm path).isSome := by
  rw [serveMuxMatch]
  obtain ⟨l1, l2, rfl⟩ := List.append_of_mem hmem
  rw [List.foldl_append, List.foldl_cons]
  exact muxMatchFold_isSome _ _ (muxMatchStep_isSome_of_match hpm)

/-- A successful `Mux.Handle` extends the reachability invariant by its
registration. -/
theorem MuxInv_step {H : Type} {m m' : Mux H} {v p : String} {a : H}
    {rs : List (String × String × H)}
    (hinv : MuxInv m rs) (h : Mux.Handle m v p a = .ok m') :
    MuxInv m' (rs ++ [(v, p, a)]) := by
  obtain ⟨hwf, hpm, hreg⟩ := hinv
  have hwf' := Mux.Handle_WF hwf h
  obtain ⟨hp, hlp, rfl⟩ := Mux.Handle_ok hwf h
  refine ⟨hwf', ?_, ?_⟩
  · intro e he
    rcases List.mem_cons.mp he with rfl | he'
    · exact ⟨v, a, by simp, by rw [lookup_cons_self]⟩
    · obtain ⟨v', h', hmem, hheap⟩ := hpm e he'
      refine ⟨v', h', List.mem_append_left _ hmem, ?_⟩
      have hlt : e.2 < m.nextId := hwf.2 _ (lookup_mem hheap)
      rw [lookup_cons_ne (Nat.ne_of_lt hlt)]
      exact hheap
  · intro r hr
    rcases List.mem_append.mp hr with hr' | hr'
    · obtain ⟨mid, hmid⟩ := hreg r hr'
      exact ⟨mid, List.mem_cons_of_mem _ hmid⟩
    · obtain rfl : r = (v, p, a) := List.mem_singleton.mp hr'
      exact ⟨m.nextId, List.mem_cons_self _ _⟩

theorem MuxInv_applyHandlesFrom {H : Type} :
    ∀ (rs : List (String × String × H)) {m m' : Mux H}
      {rs0 : List (String × String × H)},
      MuxInv m rs0 → applyHandlesFrom m rs = .ok m' → MuxInv m' (rs0 ++ rs) := by
  intro rs
  induction rs with
  | nil =>
    intro m m' rs0 hinv h
    obtain rfl : m = m' := by simpa [applyHandlesFrom] using h
    simpa using hinv
  | cons r rest ih =>
    intro m m' rs0 hinv h
    rw [applyHandlesFrom] at h
    cases hH : Mux.Handle m r.1 r.2.1 r.2.2 with
    | error e => rw [hH] at h; exact Except.noConfusion h
    | ok m1 =>
      rw [hH] at h
      have hinv1 : MuxInv m1 (rs0 ++ [r]) := by
        have := MuxInv_step hinv hH
        simpa using this
      have := ih hinv1 h
      simpa [List.append_assoc] using this

/-- Every state produced by a successful registration sequence satisfies the
invariant. -/
theorem MuxInv_applyHandles {H : Type} {rs : List (String × String × H)}
    {m : Mux H} (h : applyHandles rs = .ok m) : MuxInv m rs := by
  have base : MuxInv (Mux.New : Mux H) [] := by
    refine ⟨⟨rfl, ?_⟩, ?_, ?_⟩ <;> simp [Mux.New]
  simpa using MuxInv_applyHandlesFrom rs base h

/-- C2: on any Mux reachable by successful registrations, a request whose
path matches no registered pattern is served "not found" (404), and a request
whose path matches a registered pattern but whose verb was never registered
for the pattern the ServeMux selects is served "method not allowed" (405),
never "not found". -/
theorem C2_serve_distinguishes_404_405 {H : Type}
    (rs : List (String × String × H)) (m : Mux H) (method path : String)
    (hm : applyHandles rs = .ok m) :
    ((∀ r ∈ rs, pathMatch r.2.1 path = false) →
      Mux.serve m method path = .notFound)
    ∧ ((∃ r ∈ rs, pathMatch r.2.1 path = true) →
       (∀ r ∈ rs, (serveMuxMatch m.patternMux path).map Prod.fst = some r.2.1 →
          r.1 ≠ method) →
       Mux.serve m method path = .methodNotAllowed) := by
  obtain ⟨hwf, hpm, hreg⟩ := MuxInv_applyHandles hm
  constructor
  · intro hno
    have hmatch : serveMuxMatch m.patternMux path = none := by
      apply serveMuxMatch_none
      intro e he
      obtain ⟨v, h, hmem, -⟩ := hpm e he
      exact hno (v, e.1, h) hmem
    rw [Mux.serve, hmatch]
  · intro hex hverb
    obtain ⟨r, hrmem, hrpm⟩ := hex
    obtain ⟨mid, hmid⟩ := hreg r hrmem
    have hsome : (serveMuxMatch m.patternMux path).isSome :=
      serveMuxMatch_isSome hmid hrpm
    obtain ⟨e, he⟩ := Option.isSome_iff_exists.mp hsome
    obtain ⟨hemem, -⟩ := serveMuxMatch_mem he
    obtain ⟨v, h, hvrs, hheap⟩ := hpm e hemem
    have hvne : v ≠ method := by
      refine hverb (v, e.1, h) hvrs ?_
      rw [he]
      simp
    obtain ⟨pat, mid'⟩ := e
    rw [Mux.serve, he]
    dsimp only
    rw [hheap]
    simp only [Option.getD_some]
    rw [lookup_cons_ne (Ne.symm hvne)]
    rfl

theorem C2_serve_distinguishes_404_405_witness :
    Mux.serve c2Mux "GET" "/unknown/path" = .notFound ∧
    Mux.serve c2Mux "PUT" "/api/messages" = .methodNotAllowed := by
  constructor
  · exact (C2_serve_distinguishes_404_405 c2Regs c2Mux "GET" "/unknown/path"
      rfl).1 (by decide)
  · exact (C2_serve_distinguishes_404_405 c2Regs c2Mux "PUT" "/api/messages"
      rfl).2 (by decide) (by decide)

/-- A run of the registration loop that ends without error preserves
well-formedness and every existing route, resolves every processed binding's
method, and leaves each processed binding's route in the table mapped to its
adapter. -/
theorem registerLoop_ok {implRW : GoTy → Bool} {di : Dispatcher}
    {ctrl : GoController} {as : String} :
    ∀ {bs : List Binding} {m m' : Mux Adapter}, m.WF →
      registerLoop implRW di ctrl as m bs = .ok m' none →
      m'.WF ∧
      (∀ v p x, m.routeFor v p = some x → m'.routeFor v p = some x) ∧
      (∀ b ∈ bs, ∃ meth, ctrl.methods.lookup b.name = some meth ∧
        m'.routeFor (goToUpper b.verb) b.path =
          some (Adapter.mk di ctrl.dynTy as meth)) := by
  intro bs
  induction bs with
  | nil =>
    intro m m' hwf h
    obtain rfl : m = m' := by simpa [registerLoop] using h
    exact ⟨hwf, fun _ _ _ hx => hx, by simp⟩
  | cons b rest ih =>
    intro m m' hwf h
    rw [registerLoop] at h
    cases hb : Dispatcher.bind implRW di m ctrl as b with
    | panicked s msg => rw [hb] at h; simp at h
    | ok m2 val =>
      rw [hb] at h
      cases val with
      | some e => simp at h
      | none =>
        dsimp only at h
        rw [Dispatcher.bind] at hb
        split at hb
        · simp at hb
        · rename_i meth hlk
          split at hb
          · simp at hb
          · split at hb
            · simp at hb
            · rename_i u hval m3 hH
              obtain ⟨rfl, -⟩ : m3 = m2 ∧ True := by
                refine ⟨?_, trivial⟩
                simpa using hb
              have hwf2 := Mux.Handle_WF hwf hH
              obtain ⟨hwf', hpres2, hroutes⟩ := ih hwf2 h
              refine ⟨hwf', ?_, ?_⟩
              · intro v p x hx
                exact hpres2 _ _ _ (Mux.Handle_preserves hwf hH _ _ _ hx)
              · intro b' hb'
                rcases List.mem_cons.mp hb' with rfl | hb''
                · exact ⟨meth, hlk,
                    hpres2 _ _ _ (Mux.Handle_new_route hwf hH)⟩
                · exact hroutes b' hb''

/-- Appending to a binding list that the loop finishes cleanly continues from
the state the prefix produced. -/
theorem registerLoop_append_ok {implRW : GoTy → Bool} {di : Dispatcher}
    {ctrl : GoController} {as : String} :
    ∀ (l1 l2 : List Binding) (m m1 : Mux Adapter),
      registerLoop implRW di ctrl as m l1 = .ok m1 none →
      registerLoop implRW di ctrl as m (l1 ++ l2) =
        registerLoop implRW di ctrl as m1 l2 := by
  intro l1
  induction l1 with
  | nil =>
    intro l2 m m1 h
    obtain rfl : m = m1 := by simpa [registerLoop] using h
    rfl
  | cons b rest ih =>
    intro l2 m m1 h
    rw [registerLoop] at h
    rw [List.cons_append, registerLoop]
    cases hb : Dispatcher.bind implRW di m ctrl as b with
    | panicked s msg => rw [hb] at h; simp at h
    | ok m2 val =>
      rw [hb] at h
      cases val with
      | some e => simp at h
      | none => exact ih l2 m2 m1 h

/-- A binding whose method cannot be found or fails validation makes `bind`
return an error without touching the router. -/
theorem bind_invalid (implRW : GoTy → Bool) (di : Dispatcher)
    (m : Mux Adapter) {ctrl : GoController} (as : String) {b : Binding}
    (hbad : ctrl.methods.lookup b.name = none ∨
      ∃ meth e, ctrl.methods.lookup b.name = some meth ∧
        validate implRW meth = .error e) :
    ∃ emsg, Dispatcher.bind implRW di m ctrl as b = .ok m (some emsg) := by
  rcases hbad with hnone | ⟨meth, e, hsome, hval⟩
  · exact ⟨_, by rw [Dispatcher.bind, hnone]⟩
  · refine ⟨dispatcherString di ++ ": error validating " ++ ctrl.typeName ++
      "." ++ b.name ++ ": " ++ e, ?_⟩
    rw [Dispatcher.bind, hsome]
    simp only [hval]

/-- C1: evaluation of the failing input.  Registering a second handler for a
pattern that already has one — whether under a different verb or the same
verb — does not overwrite: `Mux.Handle` panics with the inner ServeMux's
duplicate-registration message, because it never stores the freshly
allocated verbMux into `byPattern`, so the second call re-registers the
pattern. -/
theorem C1_second_registration_same_pattern_panics :
    applyHandles [("GET", "/p", (0 : Nat)), ("POST", "/p", 1)] =
      .error "http: multiple registrations for /p" ∧
    applyHandles [("GET", "/p", (0 : Nat)), ("GET", "/p", 1)] =
      .error "http: multiple registrations for /p" :=
  ⟨rfl, rfl⟩

/-- `validate` succeeds exactly for exported methods with receiver,
response-writer-implementing first argument and `*http.Request` second
argument. -/
theorem validate_ok_iff (implRW : GoTy → Bool) (meth : RMethod) :
    validate implRW meth = .ok () ↔
      (meth.pkgPath = "" ∧ meth.ins.length = 3 ∧
        implRW (meth.ins.getD 1 default) = true ∧
        meth.ins.getD 2 default = ptrRequest) := by
  rw [validate]
  split_ifs with h1 h2 h3 h4
  · simp [h1]
  · simp [h2]
  · simp at h3
    simp [h3]
  · simp at h4
    simp [h4]
  · simp_all

/-- C3: a binding is accepted exactly when its method exists, is exported and
takes precisely a response writer and a `*http.Request` beyond the receiver;
the first binding violating this makes `Register` return an error with the
Mux left exactly as the earlier bindings of the call produced it, so no
route is added for the violating binding. -/
theorem C3_register_validates_bindings
    (implRW : GoTy → Bool) (di : Dispatcher) (m0 mPre : Mux Adapter)
    (ctrl : GoController) (as : String) (pre post : List Binding) (b : Binding)
    (has : as ≠ "")
    (hb : ctrl.bindings = pre ++ b :: post)
    (hpre : registerLoop implRW di ctrl as m0 pre = .ok mPre none)
    (hbad : ctrl.methods.lookup b.name = none ∨
      ∃ meth e, ctrl.methods.lookup b.name = some meth ∧
        validate implRW meth = .error e) :
    (∀ meth : RMethod, validate implRW meth = .ok () ↔
      (meth.pkgPath = "" ∧ meth.ins.length = 3 ∧
        implRW (meth.ins.getD 1 default) = true ∧
        meth.ins.getD 2 default = ptrRequest))
    ∧ ∃ emsg, Dispatcher.Register implRW di m0 ctrl as = .ok mPre (some emsg) := by
  refine ⟨fun meth => validate_ok_iff implRW meth, ?_⟩
  obtain ⟨emsg, hbind⟩ := bind_invalid implRW di mPre as hbad
  refine ⟨emsg, ?_⟩
  rw [Dispatcher.Register, if_neg has, if_neg (by simp [hb]), hb,
    registerLoop_append_ok pre (b :: post) m0 mPre hpre, registerLoop, hbind]

theorem C3_register_validates_bindings_witness :
    ∃ emsg, Dispatcher.Register implRWEx diEx Mux.New ctrlEx "message" =
      .ok c3MPre (some emsg) :=
  (C3_register_validates_bindings implRWEx diEx Mux.New c3MPre ctrlEx "message"
    [⟨"POST", "/api/messages", "Send"⟩] [] ⟨"GET", "/spy/messages", "Missing"⟩
    (by decide) rfl rfl (Or.inl rfl)).2

/-- C5: when one binding of a `Register` call fails validation, only the
rest of the call is aborted: the routes of the earlier bindings of the same
call are present, mapped to their adapters, and every route that existed
before the call is still present unchanged. -/
theorem C5_failed_binding_keeps_earlier_routes
    (implRW : GoTy → Bool) (di : Dispatcher) (m0 mPre : Mux Adapter)
    (ctrl : GoController) (as : String) (pre post : List Binding) (b : Binding)
    (hwf : m0.WF)
    (has : as ≠ "")
    (hb : ctrl.bindings = pre ++ b :: post)
    (hpre : registerLoop implRW di ctrl as m0 pre = .ok mPre none)
    (hbad : ctrl.methods.lookup b.name = none ∨
      ∃ meth e, ctrl.methods.lookup b.name = some meth ∧
        validate implRW meth = .error e) :
    (∃ emsg, Dispatcher.Register implRW di m0 ctrl as = .ok mPre (some emsg))
    ∧ (∀ v p x, m0.routeFor v p = some x → mPre.routeFor v p = some x)
    ∧ (∀ b' ∈ pre, ∃ meth, ctrl.methods.lookup b'.name = some meth ∧
        mPre.routeFor (goToUpper b'.verb) b'.path =
          some (Adapter.mk di ctrl.dynTy as meth)) := by
  obtain ⟨-, hpres, hroutes⟩ := registerLoop_ok hwf hpre
  refine ⟨?_, hpres, hroutes⟩
  obtain ⟨emsg, hbind⟩ := bind_invalid implRW di mPre as hbad
  refine ⟨emsg, ?_⟩
  rw [Dispatcher.Register, if_neg has, if_neg (by simp [hb]), hb,
    registerLoop_append_ok pre (b :: post) m0 mPre hpre, registerLoop, hbind]

theorem C5_failed_binding_keeps_earlier_routes_witness :
    c3MPre.routeFor "POST" "/api/messages" =
      some (Adapter.mk diEx ctrlTyEx "message" methSendEx) ∧
    (∃ emsg, Dispatcher.Register implRWEx diEx Mux.New ctrlEx "message" =
      .ok c3MPre (some emsg)) := by
  have h := C5_failed_binding_keeps_earlier_routes implRWEx diEx Mux.New c3MPre
    ctrlEx "message" [⟨"POST", "/api/messages", "Send"⟩] []
    ⟨"GET", "/spy/messages", "Missing"⟩
    (by refine ⟨rfl, ?_⟩; simp [Mux.New]) (by decide) rfl rfl (Or.inl rfl)
  refine ⟨?_, h.1⟩
  obtain ⟨meth, hlk, hroute⟩ := h.2.2 ⟨"POST", "/api/messages", "Send"⟩ (by simp)
  have hm : meth = methSendEx := by
    have h2 : some meth = some methSendEx := by rw [← hlk]; rfl
    exact Option.some_inj.mp h2
  rw [hm] at hroute
  exact hroute

/-- C6: `Register` with an empty label, or with a controller whose
`Bindings()` is empty, returns the configuration error and returns the
router state completely unchanged. -/
theorem C6_register_rejects_empty_label_and_bindings
    (implRW : GoTy → Bool) (di : Dispatcher) (m : Mux Adapter)
    (ctrl : GoController) (as : String) :
    (Dispatcher.Register implRW di m ctrl "" =
      .ok m (some (dispatcherString di ++ ": argument 'as' cannot be empty")))
    ∧ (as ≠ "" → ctrl.bindings = [] →
      Dispatcher.Register implRW di m ctrl as =
        .ok m (some (dispatcherString di ++ ": type '" ++ as ++
          "' returns 0 bindings"))) := by
  constructor
  · rw [Dispatcher.Register, if_pos rfl]
  · intro has hempty
    rw [Dispatcher.Register, if_neg has, if_pos (by simp [hempty])]

theorem C6_register_rejects_empty_label_and_bindings_witness :
    Dispatcher.Register implRWEx diEx Mux.New ctrlEx "" =
      .ok Mux.New
        (some "di.Dispatcher<messageService>: argument 'as' cannot be empty") ∧
    Dispatcher.Register implRWEx diEx Mux.New
        ⟨"MessageController", ctrlTyEx, [("Send", methSendEx)], []⟩ "message" =
      .ok Mux.New
        (some "di.Dispatcher<messageService>: type 'message' returns 0 bindings") := by
  constructor
  · exact (C6_register_rejects_empty_label_and_bindings implRWEx diEx Mux.New
      ctrlEx "message").1
  · exact (C6_register_rejects_empty_label_and_bindings implRWEx diEx Mux.New
      ⟨"MessageController", ctrlTyEx, [("Send", methSendEx)], []⟩ "message").2
      (by decide) rfl

/-- A binding whose method resolves and validates reduces `bind` to the
router registration under the upper-cased verb. -/
theorem bind_valid {implRW : GoTy → Bool} {di : Dispatcher} {m : Mux Adapter}
    {ctrl : GoController} {as : String} {b : Binding} {meth : RMethod}
    (hm : ctrl.methods.lookup b.name = some meth)
    (hval : validate implRW meth = .ok ()) :
    Dispatcher.bind implRW di m ctrl as b =
      (match Mux.Handle m (goToUpper b.verb) b.path
          (Adapter.mk di ctrl.dynTy as meth) with
       | .error pmsg => GoStep.panicked m pmsg
       | .ok m2 => GoStep.ok m2 none) := by
  rw [Dispatcher.bind, hm]
  simp only [hval]

/-- C9: `bind` registers the route under `strings.ToUpper` of the binding's
verb while the Mux matches the request method case-sensitively, so a
binding declared with a lowercase verb serves requests with the uppercase
method and answers the original lowercase method with 405. -/
theorem C9_lowercase_verb_registered_uppercase
    (implRW : GoTy → Bool) (di : Dispatcher) (ctrl : GoController)
    (as v p nm : String) (meth : RMethod)
    (has : as ≠ "")
    (hb : ctrl.bindings = [⟨v, p, nm⟩])
    (hm : ctrl.methods.lookup nm = some meth)
    (hval : validate implRW meth = .ok ())
    (hp : p ≠ "")
    (hlow : goToUpper v ≠ v) :
    ∃ m', Dispatcher.Register implRW di Mux.New ctrl as = .ok m' none ∧
      Mux.serve m' (goToUpper v) p =
        .handler (Adapter.mk di ctrl.dynTy as meth) ∧
      Mux.serve m' v p = .methodNotAllowed := by
  refine ⟨⟨[(p, 0)], [],
    [(0, [(goToUpper v, Adapter.mk di ctrl.dynTy as meth)])], 1⟩, ?_, ?_, ?_⟩
  · have hH : Mux.Handle (Mux.New : Mux Adapter) (goToUpper v) p
        (Adapter.mk di ctrl.dynTy as meth) =
        .ok ⟨[(p, 0)], [],
          [(0, [(goToUpper v, Adapter.mk di ctrl.dynTy as meth)])], 1⟩ := by
      simp [Mux.Handle, Mux.New, serveMuxHandle, hp, List.lookup, heapSet, vmSet]
    rw [Dispatcher.Register, if_neg has, if_neg (by simp [hb]), hb, registerLoop,
      bind_valid hm hval]
    dsimp only
    rw [hH]
    rfl
  · have hmatch : serveMuxMatch [(p, 0)] p = some (p, 0) := by
      simp [serveMuxMatch, muxMatchStep, pathMatch_self hp]
    rw [Mux.serve, hmatch]
    dsimp only
    rw [lookup_cons_self]
    simp only [Option.getD_some]
    rw [lookup_cons_self]
  · have hmatch : serveMuxMatch [(p, 0)] p = some (p, 0) := by
      simp [serveMuxMatch, muxMatchStep, pathMatch_self hp]
    rw [Mux.serve, hmatch]
    dsimp only
    rw [lookup_cons_self]
    simp only [Option.getD_some]
    rw [lookup_cons_ne (Ne.symm hlow)]
    rfl

theorem C9_lowercase_verb_registered_uppercase_witness :
    ∃ m', Dispatcher.Register implRWEx diEx Mux.New ctrlLowEx "message" =
      .ok m' none ∧
      Mux.serve m' (goToUpper "post") "/api/messages" =
        .handler (Adapter.mk diEx ctrlLowEx.dynTy "message" methSendEx) ∧
      Mux.serve m' "post" "/api/messages" = .methodNotAllowed :=
  C9_lowercase_verb_registered_uppercase implRWEx diEx ctrlLowEx "message"
    "post" "/api/messages" "Send" methSendEx (by decide) rfl rfl rfl
    (by decide) (by decide)

/-- C4: on every request, the adapter panics with a message naming the
dispatcher, the request verb and path, the label, and the expected and
actual types whenever the freshly constructed instance's dynamic type is not
the controller type recorded at registration — and never invokes the method
then; when the types agree it invokes the registration-time method on the
fresh instance with the adapter's response writer and request. -/
theorem C4_adapter_type_check (a : Adapter) (req : DRequest) :
    (((a.di.factory req a.label).dynTy ≠ a.ctrlType) →
      Adapter.run a req = .panicked (dispatcherString a.di ++
          ": for " ++ req.method ++ ", " ++ req.path ++ " NewController(" ++
          a.label ++ ") returned " ++ (a.di.factory req a.label).dynTy.name ++
          " but expected " ++ a.ctrlType.name) ∧
        ∀ mt i r, Adapter.run a req ≠ .invoked mt i r)
    ∧ (((a.di.factory req a.label).dynTy = a.ctrlType) →
      Adapter.run a req = .invoked a.meth (a.di.factory req a.label) req) := by
  constructor
  · intro hne
    have hrun : Adapter.run a req = .panicked (dispatcherString a.di ++
        ": for " ++ req.method ++ ", " ++ req.path ++ " NewController(" ++
        a.label ++ ") returned " ++ (a.di.factory req a.label).dynTy.name ++
        " but expected " ++ a.ctrlType.name) := by
      rw [Adapter.run]
      simp only [if_pos hne]
    refine ⟨hrun, ?_⟩
    intro mt i r hinv
    rw [hrun] at hinv
    exact AdaptOutcome.noConfusion hinv
  · intro heq
    rw [Adapter.run]
    simp only [if_neg (not_not_intro heq)]

theorem C4_adapter_type_check_witness :
    Adapter.run (Adapter.mk ⟨"messageService", factoryBadEx⟩ ctrlTyEx
        "message" methSendEx) ⟨"POST", "/api/messages"⟩ =
      .panicked ("di.Dispatcher<messageService>: for POST, /api/messages " ++
        "NewController(message) returned int but expected " ++
        "message.MessageController") ∧
    Adapter.run (Adapter.mk diEx ctrlTyEx "message" methSendEx)
        ⟨"POST", "/api/messages"⟩ =
      .invoked methSendEx ⟨ctrlTyEx⟩ ⟨"POST", "/api/messages"⟩ := by
  constructor
  · exact ((C4_adapter_type_check (Adapter.mk ⟨"messageService", factoryBadEx⟩
      ctrlTyEx "message" methSendEx) ⟨"POST", "/api/messages"⟩).1
      (by decide)).1
  · exact (C4_adapter_type_check (Adapter.mk diEx ctrlTyEx "message"
      methSendEx) ⟨"POST", "/api/messages"⟩).2 (by decide)

/-- C7 counterexample: when the body fails to decode (a syntax error, so the
zero-value message survives) and Transport.Send of that message also fails,
the response body is not the single read-error envelope — a second envelope
is appended after it (the status is still 500). -/
theorem C7_counterexample_double_failure :
    (MessageController.Send ctFailEx juBadEx (.ok "payload")
        ResponseRecorder.init).1.body ≠
      "\x7b\"error\": \"error reading request: unexpected end of JSON input\"\x7d\n" ∧
    (MessageController.Send ctFailEx juBadEx (.ok "payload")
        ResponseRecorder.init).1.wroteHeader = some 500 := by
  constructor
  · decide
  · rfl

/-- C7 (amended): a POST body that reads and decodes as a message is
persisted through the injected Transport and answered 200 with an empty
body; a failed read/decode is answered 500 with the JSON error envelope for
the read error provided Transport.Send of the message the failed Unmarshal
left behind (the zero value, or a partially decoded message on a type
error) succeeds; a failed Transport.Send on a decoded body is answered 500
with the envelope for the send error; and when both the read/decode and the
subsequent send of the left-behind message fail, the status is still 500
but the body carries both envelopes. -/
theorem C7_send_responses
    (ct : MessageController) (ju : String → Message → Message × Option String)
    (reqBody : Except String String) (s e e2 : String) (rem msg : Message) :
    ((reqBody = .ok s → ju s ⟨"", "", ""⟩ = (msg, none) →
      ct.transport.sendErr msg = none →
      MessageController.Send ct ju reqBody ResponseRecorder.init =
        (⟨some 200, "", [200]⟩, [msg])))
    ∧ ((Unmarshal ju reqBody ⟨"", "", ""⟩ = (rem, some e) →
       ct.transport.sendErr rem = none →
      MessageController.Send ct ju reqBody ResponseRecorder.init =
        (⟨some 500,
          "\x7b\"error\": \"error reading request: " ++ e ++ "\"\x7d\n",
          [500, 200]⟩, [rem])))
    ∧ ((reqBody = .ok s → ju s ⟨"", "", ""⟩ = (msg, none) →
       ct.transport.sendErr msg = some e →
      MessageController.Send ct ju reqBody ResponseRecorder.init =
        (⟨some 500,
          "\x7b\"error\": \"error sending message: " ++ e ++ "\"\x7d\n",
          [500, 200]⟩, [msg])))
    ∧ ((Unmarshal ju reqBody ⟨"", "", ""⟩ = (rem, some e) →
       ct.transport.sendErr rem = some e2 →
      MessageController.Send ct ju reqBody ResponseRecorder.init =
        ((HTTPError (HTTPError ResponseRecorder.init 500
            ("error reading request: " ++ e)) 500
            ("error sending message: " ++ e2)).WriteHeader 200,
          [rem]))) := by
  refine ⟨?_, ?_, ?_, ?_⟩
  · rintro rfl hju hsend
    simp [MessageController.Send, Unmarshal, hju, hsend,
      ResponseRecorder.WriteHeader, ResponseRecorder.init]
  · intro hU hsend
    simp only [MessageController.Send, hU, hsend, HTTPError, httpErrorStd,
      ResponseRecorder.WriteHeader, ResponseRecorder.write,
      ResponseRecorder.init]
    simp [String.append_assoc]
    rw [← String.append_assoc]
    congr 1
  · rintro rfl hju hsend
    simp only [MessageController.Send, Unmarshal, hju, hsend, HTTPError,
      httpErrorStd, ResponseRecorder.WriteHeader, ResponseRecorder.write,
      ResponseRecorder.init]
    simp [String.append_assoc]
    rw [← String.append_assoc]
    congr 1
  · intro hU hsend
    simp [MessageController.Send, hU, hsend]

theorem C7_send_responses_witness :
    MessageController.Send ctOkEx juOkEx (.ok "payload") ResponseRecorder.init =
      (⟨some 200, "", [200]⟩, [⟨"kkrs", "world", "hello"⟩]) ∧
    MessageController.Send ctOkEx juBadEx (.ok "payload") ResponseRecorder.init =
      (⟨some 500,
        "\x7b\"error\": \"error reading request: unexpected end of JSON input\"\x7d\n",
        [500, 200]⟩, [⟨"", "", ""⟩]) ∧
    MessageController.Send ctOkEx juTypeErrEx (.ok "payload") ResponseRecorder.init =
      (⟨some 500,
        "\x7b\"error\": \"error reading request: json: cannot unmarshal number into Go value of type string\"\x7d\n",
        [500, 200]⟩, [⟨"", "kkrs", "hi"⟩]) ∧
    MessageController.Send ctFailEx juOkEx (.ok "payload") ResponseRecorder.init =
      (⟨some 500,
        "\x7b\"error\": \"error sending message: datastore: connection refused\"\x7d\n",
        [500, 200]⟩, [⟨"kkrs", "world", "hello"⟩]) ∧
    MessageController.Send ctFailEx juBadEx (.ok "payload") ResponseRecorder.init =
      ((HTTPError (HTTPError ResponseRecorder.init 500
          ("error reading request: " ++ "unexpected end of JSON input")) 500
          ("error sending message: " ++ "datastore: connection refused")).WriteHeader
        200, [⟨"", "", ""⟩]) := by
  refine ⟨?_, ?_, ?_, ?_, ?_⟩
  · exact (C7_send_responses ctOkEx juOkEx (.ok "payload") "payload" "" ""
      ⟨"", "", ""⟩ ⟨"kkrs", "world", "hello"⟩).1 rfl rfl rfl
  · exact (C7_send_responses ctOkEx juBadEx (.ok "payload") "payload"
      "unexpected end of JSON input" "" ⟨"", "", ""⟩ ⟨"", "", ""⟩).2.1 rfl rfl
  · exact (C7_send_responses ctOkEx juTypeErrEx (.ok "payload") "payload"
      "json: cannot unmarshal number into Go value of type string" ""
      ⟨"", "kkrs", "hi"⟩ ⟨"", "", ""⟩).2.1 rfl rfl
  · exact (C7_send_responses ctFailEx juOkEx (.ok "payload") "payload"
      "datastore: connection refused" "" ⟨"", "", ""⟩
      ⟨"kkrs", "world", "hello"⟩).2.2.1 rfl rfl rfl
  · exact (C7_send_responses ctFailEx juBadEx (.ok "payload") "payload"
      "unexpected end of JSON input" "datastore: connection refused"
      ⟨"", "", ""⟩ ⟨"", "", ""⟩).2.2.2 rfl rfl

/-- C8 counterexample: on a JSON type error encoding/json skips the
mistyped field and fills the rest of the destination, so the message handed
to Transport.Send after the failed unmarshal is the partially decoded one,
not the zero value: decoding `{"From":1,"To":"kkrs","Message":"hi"}` sends
`{"", "kkrs", "hi"}`. -/
theorem C8_counterexample_partial_decode :
    (MessageController.Send ctOkEx juTypeErrEx
        (.ok "\x7b\"From\":1,\"To\":\"kkrs\",\"Message\":\"hi\"\x7d")
        ResponseRecorder.init).2 ≠ [⟨"", "", ""⟩] ∧
    (MessageController.Send ctOkEx juTypeErrEx
        (.ok "\x7b\"From\":1,\"To\":\"kkrs\",\"Message\":\"hi\"\x7d")
        ResponseRecorder.init).2 = [⟨"", "kkrs", "hi"⟩] ∧
    (MessageController.Send ctOkEx juTypeErrEx
        (.ok "\x7b\"From\":1,\"To\":\"kkrs\",\"Message\":\"hi\"\x7d")
        ResponseRecorder.init).1.wroteHeader = some 500 := by
  refine ⟨?_, ?_, ?_⟩
  · decide
  · rfl
  · rfl

/-- C8 (amended): `Send` has no early returns: after a failed
read/unmarshal it still calls Transport.Send — with the message the failed
`Unmarshal` left in `msg`, which is the zero-value message exactly when the
read failed or the decoder left the destination untouched, and a partially
decoded message on a JSON type error — while the response keeps status 500;
and after a failed Transport.Send it still executes the final
`WriteHeader(200)`, which the response writer records as a superfluous call
after the 500. -/
theorem C8_send_falls_through_after_errors
    (ct : MessageController) (ju : String → Message → Message × Option String)
    (reqBody : Except String String) (s e : String) (rem msg : Message) :
    ((Unmarshal ju reqBody ⟨"", "", ""⟩ = (rem, some e) →
      (MessageController.Send ct ju reqBody ResponseRecorder.init).2 = [rem] ∧
      (MessageController.Send ct ju reqBody ResponseRecorder.init).1.wroteHeader =
        some 500))
    ∧ ((reqBody = .error e →
      (MessageController.Send ct ju reqBody ResponseRecorder.init).2 =
        [⟨"", "", ""⟩]))
    ∧ ((reqBody = .ok s → ju s ⟨"", "", ""⟩ = (msg, none) →
       ct.transport.sendErr msg = some e →
      (MessageController.Send ct ju reqBody ResponseRecorder.init).1.headerLog =
        [500, 200] ∧
      (MessageController.Send ct ju reqBody ResponseRecorder.init).1.wroteHeader =
        some 500)) := by
  refine ⟨?_, ?_, ?_⟩
  · intro hU
    cases hs : ct.transport.sendErr rem with
    | none =>
      simp [MessageController.Send, hU, hs, HTTPError, httpErrorStd,
        ResponseRecorder.WriteHeader, ResponseRecorder.write,
        ResponseRecorder.init]
    | some e2 =>
      simp [MessageController.Send, hU, hs, HTTPError, httpErrorStd,
        ResponseRecorder.WriteHeader, ResponseRecorder.write,
        ResponseRecorder.init]
  · rintro rfl
    cases hs : ct.transport.sendErr ⟨"", "", ""⟩ with
    | none =>
      simp [MessageController.Send, Unmarshal, hs, HTTPError, httpErrorStd,
        ResponseRecorder.WriteHeader, ResponseRecorder.write,
        ResponseRecorder.init]
    | some e2 =>
      simp [MessageController.Send, Unmarshal, hs, HTTPError, httpErrorStd,
        ResponseRecorder.WriteHeader, ResponseRecorder.write,
        ResponseRecorder.init]
  · rintro rfl hju hsend
    simp [MessageController.Send, Unmarshal, hju, hsend, HTTPError,
      httpErrorStd, ResponseRecorder.WriteHeader, ResponseRecorder.write,
      ResponseRecorder.init]

theorem C8_send_falls_through_after_errors_witness :
    ((MessageController.Send ctFailEx juTypeErrEx (.ok "payload")
        ResponseRecorder.init).2 = [⟨"", "kkrs", "hi"⟩] ∧
      (MessageController.Send ctFailEx juTypeErrEx (.ok "payload")
        ResponseRecorder.init).1.wroteHeader = some 500) ∧
    (MessageController.Send ctFailEx juOkEx (.error "read failed")
        ResponseRecorder.init).2 = [⟨"", "", ""⟩] ∧
    ((MessageController.Send ctFailEx juOkEx (.ok "payload")
        ResponseRecorder.init).1.headerLog = [500, 200] ∧
      (MessageController.Send ctFailEx juOkEx (.ok "payload")
        ResponseRecorder.init).1.wroteHeader = some 500) := by
  refine ⟨?_, ?_, ?_⟩
  · exact (C8_send_falls_through_after_errors ctFailEx juTypeErrEx
      (.ok "payload") "payload"
      "json: cannot unmarshal number into Go value of type string"
      ⟨"", "kkrs", "hi"⟩ ⟨"", "", ""⟩).1 rfl
  · exact (C8_send_falls_through_after_errors ctFailEx juOkEx
      (.error "read failed") "payload" "read failed" ⟨"", "", ""⟩
      ⟨"", "", ""⟩).2.1 rfl
  · exact (C8_send_falls_through_after_errors ctFailEx juOkEx (.ok "payload")
      "payload" "datastore: connection refused" ⟨"", "", ""⟩
      ⟨"kkrs", "world", "hello"⟩).2.2 rfl rfl rfl
